import Mathlib

/-!
# Verification of the Mattermost installation-spec normalization layer

Shallow embedding of `apis/mattermost/v1beta1/mattermost_utils.go`:
the descriptor resolver (`SetDefaults`), the ingress view getters,
the label derivation functions, the image-reference formatter and the
container locator, together with proofs of the specified properties.

Go maps are embedded as functions `String → Option String`; Go's
in-place mutation with an error return is embedded as a function
returning the final object state together with the optional error.
-/

namespace MattermostV1Beta1

/-- A label map (Go `map[string]string`), as a partial lookup function. -/
def LabelMap := String → Option String

/-- Go `l[k] = v` on a map: overwrite the binding for `k`. -/
def mapInsert (l : LabelMap) (k v : String) : LabelMap :=
  fun q => if q = k then some v else l q

/-- `OperatorName` constant. -/
def OperatorName : String := "mattermost-operator"

/-- `DefaultMattermostImage` constant. -/
def DefaultMattermostImage : String := "mattermost/mattermost-enterprise-edition"

/-- `DefaultMattermostVersion` constant. -/
def DefaultMattermostVersion : String := "5.37.1"

/-- `DefaultFilestoreStorageSize` constant. -/
def DefaultFilestoreStorageSize : String := "50Gi"

/-- `DefaultMattermostDatabaseType` constant. -/
def DefaultMattermostDatabaseType : String := "mysql"

/-- `DefaultStorageSize` constant. -/
def DefaultStorageSize : String := "50Gi"

/-- `DefaultPullPolicy` constant (`corev1.PullIfNotPresent`). -/
def DefaultPullPolicy : String := "IfNotPresent"

/-- `ClusterLabel` constant. -/
def ClusterLabel : String := "installation.mattermost.com/installation"

/-- `ClusterResourceLabel` constant. -/
def ClusterResourceLabel : String := "installation.mattermost.com/resource"

/-- `MattermostAppContainerName` constant. -/
def MattermostAppContainerName : String := "mattermost"

/-- The structured `Ingress` object of the installation spec. -/
structure Ingress where
  enabled : Bool
  host : String
  annotationMap : LabelMap
  tlsSecret : String

/-- Modelled from the spec: the `FileStore` sub-spec type is declared outside
the visible source slice; per the spec it is independently defaultable and
exposes a non-failing `SetDefaults` that fills its missing values with the
documented defaults (default filestore storage size). -/
structure FileStore where
  storageSize : String

/-- Modelled from the spec: the non-failing `FileStore.SetDefaults`, filling
the missing storage size with the documented default. -/
def FileStore.SetDefaults (fs : FileStore) : FileStore :=
  if fs.storageSize = "" then { storageSize := DefaultFilestoreStorageSize } else fs

/-- Modelled from the spec: the `Database` sub-spec type is declared outside
the visible source slice; per the spec it is independently defaultable and
exposes a non-failing `SetDefaults` filling missing values with the
documented defaults (default database type and storage size). -/
structure Database where
  kind : String
  storageSize : String

/-- Modelled from the spec: the non-failing `Database.SetDefaults`, filling
missing values with the documented defaults. -/
def Database.SetDefaults (db : Database) : Database :=
  { kind := if db.kind = "" then DefaultMattermostDatabaseType else db.kind
    storageSize := if db.storageSize = "" then DefaultStorageSize else db.storageSize }

/-- The `MattermostSpec` payload: image fields, structured ingress object,
legacy flat ingress fields, user labels, and the embedded sub-specs. -/
structure MattermostSpec where
  image : String
  version : String
  imagePullPolicy : String
  ingress : Option Ingress
  ingressName : String
  ingressAnnotationMap : LabelMap
  useIngressTLS : Bool
  resourceLabels : LabelMap
  fileStore : FileStore
  database : Database

/-- The `Mattermost` custom resource: its name and its spec. -/
structure Mattermost where
  name : String
  spec : MattermostSpec

/-- `IngressEnabled`: the structured object's flag when present, else true. -/
def Mattermost.IngressEnabled (mm : Mattermost) : Bool :=
  match mm.spec.ingress with
  | some ing => ing.enabled
  | none => true

/-- `GetIngressHost`: legacy `IngressName` when the object is absent, else `Ingress.Host`. -/
def Mattermost.GetIngressHost (mm : Mattermost) : String :=
  match mm.spec.ingress with
  | none => mm.spec.ingressName
  | some ing => ing.host

/-- `GetIngresAnnotations`: legacy map when the object is absent, else the object's map. -/
def Mattermost.GetIngresAnnotations (mm : Mattermost) : LabelMap :=
  match mm.spec.ingress with
  | none => mm.spec.ingressAnnotationMap
  | some ing => ing.annotationMap

/-- `strings.ReplaceAll(s, ".", "-")`: with a single-character pattern and
replacement, replace-all is character substitution. -/
def replaceDotsDashes (s : String) : String :=
  String.mk (s.data.map fun c => if c = '.' then '-' else c)

/-- `defaultTLSSecret`: the ingress host with every `.` replaced by `-`,
suffixed with `-tls-cert` (`strings.ReplaceAll(host, ".", "-") + "-tls-cert"`). -/
def defaultTLSSecret (mm : Mattermost) : String :=
  replaceDotsDashes mm.GetIngressHost ++ "-tls-cert"

/-- `GetIngressTLSSecret`: the object's `TLSSecret` when present; otherwise the
synthesized default name if `UseIngressTLS` is set, else empty. -/
def Mattermost.GetIngressTLSSecret (mm : Mattermost) : String :=
  match mm.spec.ingress with
  | some ing => ing.tlsSecret
  | none => if mm.spec.useIngressTLS then defaultTLSSecret mm else ""

/-- The field-defaulting block of `SetDefaults`: each empty top-level field is
replaced by its documented default (the four `if` statements touch pairwise
distinct fields, so the sequential Go assignments are this simultaneous
update), and the two sub-specs are delegated to their own `SetDefaults`. -/
def MattermostSpec.defaulted (s : MattermostSpec) : MattermostSpec :=
  { s with
    image := if s.image = "" then DefaultMattermostImage else s.image
    version := if s.version = "" then DefaultMattermostVersion else s.version
    imagePullPolicy := if s.imagePullPolicy = "" then DefaultPullPolicy else s.imagePullPolicy
    fileStore := s.fileStore.SetDefaults
    database := s.database.SetDefaults }

/-- `SetDefaults` as a state transformer: the Go method mutates the receiver in
place and returns an optional error; this returns the receiver's final state
together with that error. The ingress precondition is checked first; on failure
the receiver is returned untouched. -/
def Mattermost.SetDefaultsRun (mm : Mattermost) : Mattermost × Option String :=
  if mm.IngressEnabled = true ∧ mm.GetIngressHost = "" then
    (mm, some "ingress.host required, but not set")
  else
    ({ mm with spec := mm.spec.defaulted }, none)

/-- `SetDefaults` as a fallible function: the resolved resource on success,
the configuration error message on failure. -/
def Mattermost.SetDefaults (mm : Mattermost) : Except String Mattermost :=
  match mm.SetDefaultsRun with
  | (m, none) => Except.ok m
  | (_, some e) => Except.error e

/-- `sub` occurs at the start of `s` (helper for `strings.Contains`). -/
def startsAt : List Char → List Char → Bool
  | [], _ => true
  | _ :: _, [] => false
  | a :: as, b :: bs => a = b && startsAt as bs

/-- `sub` occurs somewhere in `s` (helper for `strings.Contains`). -/
def containsSub (sub : List Char) : List Char → Bool
  | [] => startsAt sub []
  | c :: t => startsAt sub (c :: t) || containsSub sub t

/-- Go's `strings.Contains s sub`. -/
def stringContains (s sub : String) : Bool :=
  containsSub sub.data s.data

/-- `GetImageName`: joins image and version with `@` when the version contains
the literal substring `sha256:`, with `:` otherwise. -/
def Mattermost.GetImageName (mm : Mattermost) : String :=
  if stringContains mm.spec.version "sha256:" then
    mm.spec.image ++ "@" ++ mm.spec.version
  else
    mm.spec.image ++ ":" ++ mm.spec.version

/-- `GetProductionDeploymentName`: the resource's name. -/
def Mattermost.GetProductionDeploymentName (mm : Mattermost) : String :=
  mm.name

/-- `MattermostResourceLabels`: the single-entry map `{ClusterResourceLabel: name}`. -/
def MattermostResourceLabels (name : String) : LabelMap :=
  fun q => if q = ClusterResourceLabel then some name else none

/-- `MattermostSelectorLabels`: resource labels plus the cluster label and `app`. -/
def MattermostSelectorLabels (name : String) : LabelMap :=
  mapInsert (mapInsert (MattermostResourceLabels name) ClusterLabel name)
    "app" MattermostAppContainerName

/-- `MattermostLabels`: the same three entries, then the spec's `ResourceLabels`
ranged over last, each binding overwriting any existing one. -/
def Mattermost.MattermostLabels (mm : Mattermost) (name : String) : LabelMap :=
  let l := mapInsert (mapInsert (MattermostResourceLabels name) ClusterLabel name)
    "app" MattermostAppContainerName
  fun q =>
    match mm.spec.resourceLabels q with
    | some v => some v
    | none => l q

/-- A `corev1.Container`, restricted to the fields the locator can observe. -/
structure Container where
  name : String
  image : String
deriving DecidableEq

/-- A pod spec: its container list. -/
structure PodSpec where
  containers : List Container

/-- A pod template spec. -/
structure PodTemplateSpec where
  spec : PodSpec

/-- A deployment spec: its pod template. -/
structure DeploymentSpec where
  template : PodTemplateSpec

/-- An `appsv1.Deployment`. -/
structure Deployment where
  spec : DeploymentSpec

/-- `getContainerByName`: linear scan, first container with the exact name. -/
def getContainerByName : List Container → String → Option Container
  | [], _ => none
  | c :: rest, n => if c.name = n then some c else getContainerByName rest n

/-- `getDeploymentContainerByName`: the scan over the pod template's containers. -/
def getDeploymentContainerByName (d : Deployment) (containerName : String) : Option Container :=
  getContainerByName d.spec.template.spec.containers containerName

/-- `GetMattermostAppContainer`: locate the `mattermost` container in a list. -/
def GetMattermostAppContainer (containers : List Container) : Option Container :=
  getContainerByName containers MattermostAppContainerName

/-- `GetMattermostAppContainerFromDeployment`: locate the `mattermost` container
in a deployment. -/
def GetMattermostAppContainerFromDeployment (d : Deployment) : Option Container :=
  getDeploymentContainerByName d MattermostAppContainerName

/-! ### Concrete resources used by the witness theorems -/

/-- The empty label map. -/
def noLabels : LabelMap := fun _ => none

/-- A structured ingress object with every field set, used to check precedence. -/
def ingStructured : Ingress :=
  { enabled := false
    host := "structured.example.com"
    annotationMap := fun k => if k = "annot-key" then some "structured-value" else none
    tlsSecret := "structured-tls" }

/-- A resource with the structured ingress object present and all legacy flat
fields set to conflicting values. -/
def mmStructured : Mattermost :=
  { name := "mm-structured"
    spec :=
      { image := "img"
        version := "1.0.0"
        imagePullPolicy := "Always"
        ingress := some ingStructured
        ingressName := "legacy.example.com"
        ingressAnnotationMap := fun k => if k = "annot-key" then some "legacy-value" else none
        useIngressTLS := true
        resourceLabels := noLabels
        fileStore := { storageSize := "1Gi" }
        database := { kind := "postgres", storageSize := "1Gi" } } }

/-- A resource with every defaultable field empty and ingress disabled. -/
def mmBare : Mattermost :=
  { name := "mm-bare"
    spec :=
      { image := ""
        version := ""
        imagePullPolicy := ""
        ingress := some { enabled := false, host := "", annotationMap := noLabels, tlsSecret := "" }
        ingressName := ""
        ingressAnnotationMap := noLabels
        useIngressTLS := false
        resourceLabels := noLabels
        fileStore := { storageSize := "" }
        database := { kind := "", storageSize := "" } } }

/-- The fully resolved form of `mmBare`. -/
def mmBareRes : Mattermost :=
  { mmBare with
    spec :=
      { mmBare.spec with
        image := DefaultMattermostImage
        version := DefaultMattermostVersion
        imagePullPolicy := DefaultPullPolicy
        fileStore := { storageSize := DefaultFilestoreStorageSize }
        database := { kind := DefaultMattermostDatabaseType
                      storageSize := DefaultStorageSize } } }

/-- A resource with ingress implicitly enabled (object absent) and no host. -/
def mmNoHost : Mattermost :=
  { name := "mm-no-host"
    spec :=
      { image := ""
        version := ""
        imagePullPolicy := ""
        ingress := none
        ingressName := ""
        ingressAnnotationMap := noLabels
        useIngressTLS := false
        resourceLabels := noLabels
        fileStore := { storageSize := "" }
        database := { kind := "", storageSize := "" } } }

/-- A resource with the ingress object absent, a legacy host, and TLS requested. -/
def mmLegacyTLS : Mattermost :=
  { name := "mm-legacy-tls"
    spec :=
      { image := "img"
        version := "1.0.0"
        imagePullPolicy := "Always"
        ingress := none
        ingressName := "chat.example.com"
        ingressAnnotationMap := noLabels
        useIngressTLS := true
        resourceLabels := noLabels
        fileStore := { storageSize := "1Gi" }
        database := { kind := "mysql", storageSize := "1Gi" } } }

/-- The same resource with TLS not requested. -/
def mmLegacyPlain : Mattermost :=
  { mmLegacyTLS with spec := { mmLegacyTLS.spec with useIngressTLS := false } }

/-- A resource whose user labels override the reserved `app` key. -/
def mmCustomApp : Mattermost :=
  { mmLegacyTLS with
    spec :=
      { mmLegacyTLS.spec with
        resourceLabels := fun k => if k = "app" then some "custom" else none } }

/-- A resource with a tag-style version. -/
def mmTagged : Mattermost :=
  { mmLegacyTLS with
    spec :=
      { mmLegacyTLS.spec with
        image := "mattermost/mattermost-enterprise-edition"
        version := "5.37.1" } }

/-- A resource with a digest-style version. -/
def mmDigest : Mattermost :=
  { mmLegacyTLS with
    spec := { mmLegacyTLS.spec with image := "img", version := "sha256:abcd" } }

/-! ### Helper lemmas -/

theorem fileStore_setDefaults_idem (fs : FileStore) :
    fs.SetDefaults.SetDefaults = fs.SetDefaults := by
  have hd : DefaultFilestoreStorageSize ≠ "" := by decide
  by_cases h : fs.storageSize = "" <;>
    simp [FileStore.SetDefaults, h, hd]

theorem database_setDefaults_idem (db : Database) :
    db.SetDefaults.SetDefaults = db.SetDefaults := by
  have h1 : DefaultMattermostDatabaseType ≠ "" := by decide
  have h2 : DefaultStorageSize ≠ "" := by decide
  by_cases hk : db.kind = "" <;> by_cases hs : db.storageSize = "" <;>
    simp [Database.SetDefaults, hk, hs, h1, h2]

theorem MattermostSpec.defaulted_idem (s : MattermostSpec) :
    s.defaulted.defaulted = s.defaulted := by
  have hi : DefaultMattermostImage ≠ "" := by decide
  have hv : DefaultMattermostVersion ≠ "" := by decide
  have hp : DefaultPullPolicy ≠ "" := by decide
  unfold MattermostSpec.defaulted
  by_cases h1 : s.image = "" <;> by_cases h2 : s.version = "" <;>
    by_cases h3 : s.imagePullPolicy = "" <;>
    simp [h1, h2, h3, hi, hv, hp, fileStore_setDefaults_idem, database_setDefaults_idem]

theorem startsAt_iff (sub s : List Char) :
    startsAt sub s = true ↔ ∃ t, s = sub ++ t := by
  induction sub generalizing s with
  | nil => simp [startsAt]
  | cons a as ih =>
    cases s with
    | nil => simp [startsAt]
    | cons b bs =>
      simp only [startsAt, Bool.and_eq_true, decide_eq_true_eq, ih,
        List.cons_append, List.cons.injEq]
      constructor
      · rintro ⟨rfl, t, rfl⟩
        exact ⟨t, rfl, rfl⟩
      · rintro ⟨t, rfl, rfl⟩
        exact ⟨rfl, t, rfl⟩

theorem containsSub_iff (sub s : List Char) :
    containsSub sub s = true ↔ ∃ p q, s = p ++ sub ++ q := by
  induction s with
  | nil =>
    simp only [containsSub, startsAt_iff]
    constructor
    · rintro ⟨t, ht⟩
      rcases List.append_eq_nil.mp ht.symm with ⟨h1, h2⟩
      exact ⟨[], [], by simp [h1]⟩
    · rintro ⟨p, q, hpq⟩
      rcases List.append_eq_nil.mp hpq.symm with ⟨h1, h2⟩
      rcases List.append_eq_nil.mp h1 with ⟨h3, h4⟩
      exact ⟨[], by simp [h4]⟩
  | cons c t ih =>
    simp only [containsSub, Bool.or_eq_true, startsAt_iff, ih]
    constructor
    · rintro (⟨u, hu⟩ | ⟨p, q, hpq⟩)
      · exact ⟨[], u, by simp [hu]⟩
      · exact ⟨c :: p, q, by simp [hpq]⟩
    · rintro ⟨p, q, hpq⟩
      cases p with
      | nil => exact Or.inl ⟨q, by simpa using hpq⟩
      | cons x xs =>
        right
        refine ⟨xs, q, ?_⟩
        have := hpq
        simp only [List.cons_append, List.cons.injEq] at this
        exact this.2

theorem stringContains_iff (s sub : String) :
    stringContains s sub = true ↔ ∃ p q, s = p ++ sub ++ q := by
  constructor
  · intro h
    rcases (containsSub_iff sub.data s.data).mp h with ⟨p, q, hpq⟩
    refine ⟨String.mk p, String.mk q, ?_⟩
    apply String.ext
    simpa [String.data_append] using hpq
  · rintro ⟨p, q, rfl⟩
    apply (containsSub_iff sub.data _).mpr
    exact ⟨p.data, q.data, by simp [String.data_append]⟩

/-! ### Claim theorems -/

/-- C1: `SetDefaults` returns an error if and only if ingress is enabled
(explicitly via a present object with `Enabled = true`, or implicitly because
the object is absent) and the resolvable host is empty; and the only error it
ever returns is the configuration error `"ingress.host required, but not set"`. -/
theorem setDefaults_error_iff (mm : Mattermost) :
    ((∃ e, mm.SetDefaults = Except.error e) ↔
      (mm.IngressEnabled = true ∧ mm.GetIngressHost = ""))
    ∧ (∀ e, mm.SetDefaults = Except.error e →
        e = "ingress.host required, but not set") := by
  unfold Mattermost.SetDefaults Mattermost.SetDefaultsRun
  by_cases hc : mm.IngressEnabled = true ∧ mm.GetIngressHost = "" <;>
    simp [hc]

/-- C1 witness: a spec with the ingress object absent and an empty legacy host
fails to resolve. -/
theorem setDefaults_error_iff_witness :
    ∃ e, mmNoHost.SetDefaults = Except.error e :=
  (setDefaults_error_iff mmNoHost).1.mpr ⟨rfl, rfl⟩

/-- C2: when the structured `Ingress` object is present, the four resolved
ingress values are exactly its `Enabled`, `Host`, `Annotations` and `TLSSecret`
fields (so the legacy flat fields have no effect on them); when it is absent,
ingress is enabled and `Host` and `Annotations` come from the legacy fields. -/
theorem ingressView_precedence (mm : Mattermost) :
    (∀ ing, mm.spec.ingress = some ing →
      mm.IngressEnabled = ing.enabled ∧
      mm.GetIngressHost = ing.host ∧
      mm.GetIngresAnnotations = ing.annotationMap ∧
      mm.GetIngressTLSSecret = ing.tlsSecret)
    ∧ (mm.spec.ingress = none →
      mm.IngressEnabled = true ∧
      mm.GetIngressHost = mm.spec.ingressName ∧
      mm.GetIngresAnnotations = mm.spec.ingressAnnotationMap) := by
  cases hi : mm.spec.ingress <;>
    simp [Mattermost.IngressEnabled, Mattermost.GetIngressHost,
      Mattermost.GetIngresAnnotations, Mattermost.GetIngressTLSSecret, hi]

/-- C2 witness: with the ingress object present and conflicting legacy fields
set, the resolved view takes the object's values. -/
theorem ingressView_precedence_witness :
    mmStructured.IngressEnabled = false ∧
    mmStructured.GetIngressHost = "structured.example.com" ∧
    mmStructured.GetIngressTLSSecret = "structured-tls" :=
  have h := (ingressView_precedence mmStructured).1 ingStructured rfl
  ⟨h.1, h.2.1, h.2.2.2⟩

/-- C5: with the ingress object absent, the resolved TLS secret is empty when
the legacy `UseIngressTLS` flag is unset, and otherwise it is the legacy host
with every `.` replaced by `-`, suffixed with `-tls-cert`. -/
theorem tlsSecret_legacy (mm : Mattermost) (h : mm.spec.ingress = none) :
    (mm.spec.useIngressTLS = false → mm.GetIngressTLSSecret = "")
    ∧ (mm.spec.useIngressTLS = true →
      mm.GetIngressTLSSecret = replaceDotsDashes mm.spec.ingressName ++ "-tls-cert") := by
  cases ht : mm.spec.useIngressTLS <;>
    simp [Mattermost.GetIngressTLSSecret, defaultTLSSecret,
      Mattermost.GetIngressHost, h, ht]

/-- C5 witness: with the object absent, the flag unset yields an empty secret,
and legacy host `chat.example.com` with the flag set yields
`chat-example-com-tls-cert`. -/
theorem tlsSecret_legacy_witness :
    mmLegacyPlain.GetIngressTLSSecret = "" ∧
    mmLegacyTLS.GetIngressTLSSecret = "chat-example-com-tls-cert" :=
  ⟨(tlsSecret_legacy mmLegacyPlain rfl).1 rfl,
    ((tlsSecret_legacy mmLegacyTLS rfl).2 rfl).trans (by decide)⟩

/-- C6: the full label map equals the selector label map with the spec's
`ResourceLabels` overlaid last, so a user-supplied value wins on any key
collision; in particular `ResourceLabels = ("app" to "custom")` maps the
reserved key `app` to `custom`. -/
theorem mattermostLabels_overlay :
    (∀ (mm : Mattermost) (name k : String),
      mm.MattermostLabels name k =
        match mm.spec.resourceLabels k with
        | some v => some v
        | none => MattermostSelectorLabels name k)
    ∧ mmCustomApp.MattermostLabels "team-a" "app" = some "custom" :=
  ⟨fun _ _ _ => rfl, by decide⟩

/-- C7: for every installation name, the selector label map has exactly the
three entries `ClusterResourceLabel` and `ClusterLabel` mapped to the name and
`app` mapped to `mattermost`, and the resource label map is exactly the
single entry `ClusterResourceLabel` mapped to the name. -/
theorem selectorLabels_exact (name : String) :
    MattermostSelectorLabels name ClusterResourceLabel = some name
    ∧ MattermostSelectorLabels name ClusterLabel = some name
    ∧ MattermostSelectorLabels name "app" = some "mattermost"
    ∧ (∀ k, k ≠ ClusterResourceLabel → k ≠ ClusterLabel → k ≠ "app" →
        MattermostSelectorLabels name k = none)
    ∧ MattermostResourceLabels name ClusterResourceLabel = some name
    ∧ (∀ k, k ≠ ClusterResourceLabel → MattermostResourceLabels name k = none) := by
  have h1 : ClusterResourceLabel ≠ "app" := by decide
  have h2 : ClusterResourceLabel ≠ ClusterLabel := by decide
  have h3 : ClusterLabel ≠ "app" := by decide
  refine ⟨?_, ?_, ?_, ?_, ?_, ?_⟩ <;>
    simp [MattermostSelectorLabels, MattermostResourceLabels, mapInsert,
      MattermostAppContainerName, h1, h2, h3]
  intro k hk1 hk2 hk3
  simp [hk1, hk2, hk3]

/-- C7 witness: the three selector entries for name `team-a`, absence of any
other key, and the single resource label entry. -/
theorem selectorLabels_exact_witness :
    MattermostSelectorLabels "team-a" "installation.mattermost.com/resource" = some "team-a"
    ∧ MattermostSelectorLabels "team-a" "installation.mattermost.com/installation" = some "team-a"
    ∧ MattermostSelectorLabels "team-a" "app" = some "mattermost"
    ∧ MattermostSelectorLabels "team-a" "other" = none
    ∧ MattermostResourceLabels "team-a" "other" = none :=
  have h := selectorLabels_exact "team-a"
  ⟨h.1, h.2.1, h.2.2.1,
    h.2.2.2.1 "other" (by decide) (by decide) (by decide),
    h.2.2.2.2.2 "other" (by decide)⟩

/-- `SetDefaults` on the failure path (helper). -/
theorem setDefaults_err (mm : Mattermost)
    (hc : mm.IngressEnabled = true ∧ mm.GetIngressHost = "") :
    mm.SetDefaults = Except.error "ingress.host required, but not set" := by
  simp [Mattermost.SetDefaults, Mattermost.SetDefaultsRun, hc]

/-- `SetDefaults` on the success path (helper). -/
theorem setDefaults_ok (mm : Mattermost)
    (hc : ¬(mm.IngressEnabled = true ∧ mm.GetIngressHost = "")) :
    mm.SetDefaults = Except.ok { mm with spec := mm.spec.defaulted } := by
  simp [Mattermost.SetDefaults, Mattermost.SetDefaultsRun, hc]

/-- C3: resolution is idempotent — whenever `SetDefaults` succeeds, applying it
again to the resolved resource succeeds and changes nothing. -/
theorem setDefaults_idem (mm mm' : Mattermost) (h : mm.SetDefaults = Except.ok mm') :
    mm'.SetDefaults = Except.ok mm' := by
  by_cases hc : mm.IngressEnabled = true ∧ mm.GetIngressHost = ""
  · rw [setDefaults_err mm hc] at h
    exact absurd h (by simp)
  · rw [setDefaults_ok mm hc] at h
    have hmm : ({ mm with spec := mm.spec.defaulted } : Mattermost) = mm' := by
      simpa using h
    have he : mm'.IngressEnabled = mm.IngressEnabled := by rw [← hmm]; rfl
    have hh : mm'.GetIngressHost = mm.GetIngressHost := by rw [← hmm]; rfl
    have hc' : ¬(mm'.IngressEnabled = true ∧ mm'.GetIngressHost = "") := by
      rw [he, hh]; exact hc
    rw [setDefaults_ok mm' hc', ← hmm]
    simp [MattermostSpec.defaulted_idem]

/-- C3 witness: resolving an already-resolved concrete resource is a no-op. -/
theorem setDefaults_idem_witness : mmBareRes.SetDefaults = Except.ok mmBareRes :=
  setDefaults_idem mmBare mmBareRes rfl

/-- C4: on success, an empty `Image`, `Version` or `ImagePullPolicy` is set to
its fixed default while a non-empty one is left unchanged. -/
theorem setDefaults_fields (mm mm' : Mattermost) (h : mm.SetDefaults = Except.ok mm') :
    (mm.spec.image = "" → mm'.spec.image = "mattermost/mattermost-enterprise-edition")
    ∧ (mm.spec.image ≠ "" → mm'.spec.image = mm.spec.image)
    ∧ (mm.spec.version = "" → mm'.spec.version = "5.37.1")
    ∧ (mm.spec.version ≠ "" → mm'.spec.version = mm.spec.version)
    ∧ (mm.spec.imagePullPolicy = "" → mm'.spec.imagePullPolicy = "IfNotPresent")
    ∧ (mm.spec.imagePullPolicy ≠ "" → mm'.spec.imagePullPolicy = mm.spec.imagePullPolicy) := by
  by_cases hc : mm.IngressEnabled = true ∧ mm.GetIngressHost = ""
  · rw [setDefaults_err mm hc] at h
    exact absurd h (by simp)
  · rw [setDefaults_ok mm hc] at h
    have hmm : ({ mm with spec := mm.spec.defaulted } : Mattermost) = mm' := by
      simpa using h
    subst hmm
    refine ⟨?_, ?_, ?_, ?_, ?_, ?_⟩ <;> intro hf <;>
      simp [MattermostSpec.defaulted, hf, DefaultMattermostImage,
        DefaultMattermostVersion, DefaultPullPolicy]

/-- C4 witness: the concrete all-empty resource resolves to the fixed
defaults. -/
theorem setDefaults_fields_witness :
    mmBareRes.spec.image = "mattermost/mattermost-enterprise-edition"
    ∧ mmBareRes.spec.version = "5.37.1"
    ∧ mmBareRes.spec.imagePullPolicy = "IfNotPresent" :=
  have h := setDefaults_fields mmBare mmBareRes rfl
  ⟨h.1 rfl, h.2.2.1 rfl, h.2.2.2.2.1 rfl⟩

/-- C8: the formatted image reference joins image and version with `@` exactly
when the version contains the literal substring `sha256:`, and with `:`
otherwise. -/
theorem getImageName_spec (mm : Mattermost) :
    ((∃ p q, mm.spec.version = p ++ "sha256:" ++ q) →
      mm.GetImageName = mm.spec.image ++ "@" ++ mm.spec.version)
    ∧ ((∀ p q, mm.spec.version ≠ p ++ "sha256:" ++ q) →
      mm.GetImageName = mm.spec.image ++ ":" ++ mm.spec.version) := by
  unfold Mattermost.GetImageName
  by_cases hcont : stringContains mm.spec.version "sha256:" = true
  · rcases (stringContains_iff _ _).mp hcont with ⟨p, q, hpq⟩
    exact ⟨fun _ => by simp [hcont], fun hno => absurd hpq (hno p q)⟩
  · have hfalse : stringContains mm.spec.version "sha256:" = false := by
      simpa using hcont
    constructor
    · rintro ⟨p, q, hpq⟩
      exact absurd ((stringContains_iff _ _).mpr ⟨p, q, hpq⟩) hcont
    · intro _
      simp [hfalse]

/-- C8 witness: a tag-style version joins with `:`, a digest-style version
joins with `@`. -/
theorem getImageName_spec_witness :
    mmTagged.GetImageName = "mattermost/mattermost-enterprise-edition:5.37.1"
    ∧ mmDigest.GetImageName = "img@sha256:abcd" := by
  constructor
  · have h := (getImageName_spec mmTagged).2 (fun p q hpq =>
      absurd ((stringContains_iff _ _).mpr ⟨p, q, hpq⟩) (by decide))
    exact h.trans (by decide)
  · have h := (getImageName_spec mmDigest).1 ⟨"", "abcd", by decide⟩
    exact h.trans (by decide)

/-- C9: the container locator returns `none` on the empty list or when no name
matches exactly, and otherwise the first container in list order with the
matching name; the deployment variant is the same scan over the pod template's
container list. -/
theorem getContainerByName_spec :
    (∀ n, getContainerByName [] n = none)
    ∧ (∀ (cs : List Container) (n : String), (∀ c ∈ cs, c.name ≠ n) →
        getContainerByName cs n = none)
    ∧ (∀ (p : List Container) (c : Container) (s : List Container) (n : String),
        c.name = n → (∀ c' ∈ p, c'.name ≠ n) →
        getContainerByName (p ++ c :: s) n = some c)
    ∧ (∀ (d : Deployment) (n : String),
        getDeploymentContainerByName d n =
          getContainerByName d.spec.template.spec.containers n) := by
  refine ⟨fun n => rfl, ?_, ?_, fun d n => rfl⟩
  · intro cs n h
    induction cs with
    | nil => rfl
    | cons c rest ih =>
      have hc : c.name ≠ n := h c (by simp)
      simp only [getContainerByName, if_neg hc]
      exact ih fun c' hc' => h c' (by simp [hc'])
  · intro p c s n hc hp
    induction p with
    | nil => simp [getContainerByName, hc]
    | cons x xs ih =>
      have hx : x.name ≠ n := hp x (by simp)
      simp only [List.cons_append, getContainerByName, if_neg hx]
      exact ih fun c' hc' => hp c' (by simp [hc'])

/-- C9 witness: empty list, no-match list, and a duplicate-name list where the
earliest match is returned. -/
theorem getContainerByName_spec_witness :
    getContainerByName [] "app" = none
    ∧ getContainerByName [⟨"web", "w"⟩] "app" = none
    ∧ getContainerByName [⟨"web", "w"⟩, ⟨"app", "one"⟩, ⟨"app", "two"⟩] "app"
        = some ⟨"app", "one"⟩ :=
  have h := getContainerByName_spec
  ⟨h.1 "app",
    h.2.1 [⟨"web", "w"⟩] "app" (by decide),
    h.2.2.1 [⟨"web", "w"⟩] ⟨"app", "one"⟩ [⟨"app", "two"⟩] "app" rfl (by decide)⟩

/-- C10: `SetDefaults` is atomic on failure — whenever it reports an error, the
receiver's final state is exactly its initial state (no field is defaulted and
no sub-spec is touched). -/
theorem setDefaultsRun_error_atomic (mm m' : Mattermost) (e : String)
    (h : mm.SetDefaultsRun = (m', some e)) : m' = mm := by
  unfold Mattermost.SetDefaultsRun at h
  by_cases hc : mm.IngressEnabled = true ∧ mm.GetIngressHost = ""
  · rw [if_pos hc] at h
    simp only [Prod.mk.injEq] at h
    exact h.1.symm
  · rw [if_neg hc] at h
    simp at h

/-- C10 witness: the concrete host-less resource is returned untouched by the
failing run. -/
theorem setDefaultsRun_error_atomic_witness :
    mmNoHost.SetDefaultsRun.1 = mmNoHost :=
  setDefaultsRun_error_atomic mmNoHost mmNoHost.SetDefaultsRun.1
    "ingress.host required, but not set" rfl

end MattermostV1Beta1
